import Mathlib

/-!
Verification of the SteamMCP price-alert and deals-notification pipeline.

The definitions below are a shallow embedding of the Python sources:
  * `steam_tracker_mcp.py` — `PriceTracker.check_price_alerts`,
    `create_price_alert_internal`, `subscribe_daily_deals`,
    `fetch_and_cache_deals`, `get_cached_deals`, `get_emergency_deals`,
    `check_app_for_deal`, `initialize_services`;
  * `epic_games_monitor.py` — `EpicGamesMonitor.check_epic_price_alerts`,
    `EpicGamesMonitor.check_epic_free_games`.

Conventions.  All money amounts are represented exactly, in hundredths of a
currency unit ("paise").  The database columns are `DECIMAL(10,2)`, so a
stored amount is an exact multiple of 1/100 and the Python comparison
`price_overview['final'] / 100.0 <= target_price` is the integer comparison
`final ≤ targetPaise`.  External collaborators (Steam price source, Resend or
SMTP email delivery, the asyncpg connection) are modelled as explicit
environment functions; an email send is a boolean outcome, as both
`EmailService.send_email` and `_send_price_alert_email` catch their own
exceptions and return a success flag.  Database `UPDATE` statements can raise
into the caller; that possibility is part of the sweep environment.
-/

namespace SteamMCP

/-- Alert kinds stored in `price_alerts.alert_type`. -/
inductive AlertType where
  | belowTarget
  | belowCurrent
deriving DecidableEq, Repr

/-- A row of the `price_alerts` table, joined fields omitted.
`targetPrice` is in paise; `triggeredAt` is a timestamp when set. -/
structure AlertRow where
  id : Nat
  userId : Nat
  appId : Nat
  targetPrice : Nat
  alertType : AlertType
  isActive : Bool
  triggeredAt : Option Nat
deriving DecidableEq, Repr

/-- The `price_overview` block of a Steam app-details payload.
`final` and `initial` are amounts in hundredths, exactly as Steam returns
them; `discountPercent` is `discount_percent`. -/
structure PriceOverview where
  final : Nat
  initial : Nat
  discountPercent : Nat
deriving DecidableEq, Repr

/-- The `data` dictionary returned by `get_steam_price` for a found app.
A missing `price_overview` key (free-to-play or region-blocked titles) is
`none`.  `get_steam_price` itself returns `Option GameData`: `none` covers
HTTP failures, `success = false`, and exceptions, all of which the function
maps to a falsy result. -/
structure GameData where
  name : String
  isFree : Bool
  priceOverview : Option PriceOverview
deriving DecidableEq, Repr

/-- The persistent state read and written by the Steam alert evaluator:
the `price_alerts` rows, the `steam_games.current_price` column (in paise,
keyed by app id) and the `steam_users.is_active` column (keyed by user id). -/
structure SteamDB where
  alerts : List AlertRow
  gamePrice : Nat → Nat
  userActive : Nat → Bool

/-- One sweep's external world: the price source snapshot, the email-send
outcome per alert id, whether the `UPDATE steam_games` statement raises for a
given app id, and the clock used for `CURRENT_TIMESTAMP`. -/
structure SweepEnv where
  price : Nat → Option GameData
  sendOk : Nat → Bool
  persistFails : Nat → Bool
  now : Nat

/-- The initial `SELECT` of `check_price_alerts`: all alert rows with
`pa.is_active AND su.is_active`, each paired with the game's current price as
of the select (column `sg.current_price`, used by `below_current` alerts). -/
def fetchAlerts (db : SteamDB) : List (AlertRow × Nat) :=
  (db.alerts.filter (fun a => a.isActive && db.userActive a.userId)).map
    (fun a => (a, db.gamePrice a.appId))

/-- The `UPDATE price_alerts SET is_active = FALSE, triggered_at = now
WHERE id = $1` statement. -/
def setTriggered (alerts : List AlertRow) (id now : Nat) : List AlertRow :=
  alerts.map (fun a =>
    if a.id = id then { a with isActive := false, triggeredAt := some now } else a)

/-- The `should_trigger` decision: `below_target` fires when the fresh price
is at or below the target, `below_current` fires when it is strictly below
the price recorded at select time. -/
def shouldTrigger (ty : AlertType) (target snap cp : Nat) : Bool :=
  match ty with
  | .belowTarget => cp ≤ target
  | .belowCurrent => cp < snap

/-- State threaded through a sweep: the database plus the ids of alerts for
which a notification email has been sent. -/
structure SweepState where
  db : SteamDB
  sends : List Nat

/-- Result of `check_price_alerts`.  The loop body has no per-item exception
handler, so a raising `UPDATE` escapes the whole function; writes committed
before the raise persist (`aborted` keeps them), but the remaining alerts of
the batch are never examined. -/
inductive SweepResult where
  | completed (st : SweepState)
  | aborted (st : SweepState)

/-- The database/send state carried by either outcome. -/
def SweepResult.state : SweepResult → SweepState
  | .completed st => st
  | .aborted st => st

/-- Whether the sweep ran to completion. -/
def SweepResult.isCompleted : SweepResult → Bool
  | .completed _ => true
  | .aborted _ => false

/-- One iteration of the `for alert in alerts` loop of
`PriceTracker.check_price_alerts`:
fetch the price (`None` or a payload without `price_overview` leaves all
state untouched), persist the refreshed price into `steam_games` (this
`UPDATE` may raise), decide the trigger, and on a successful send mark the
alert triggered.  A failed send changes nothing beyond the price refresh. -/
def stepAlert (env : SweepEnv) (st : SweepState) (item : AlertRow × Nat) :
    Except SweepState SweepState :=
  match env.price item.1.appId with
  | none => .ok st
  | some gd =>
    match gd.priceOverview with
    | none => .ok st
    | some po =>
      if env.persistFails item.1.appId then
        .error st
      else
        let cp := po.final
        let db' : SteamDB :=
          { st.db with gamePrice := fun x => if x = item.1.appId then cp else st.db.gamePrice x }
        if shouldTrigger item.1.alertType item.1.targetPrice item.2 cp then
          if env.sendOk item.1.id then
            .ok { db := { db' with alerts := setTriggered db'.alerts item.1.id env.now },
                  sends := st.sends ++ [item.1.id] }
          else
            .ok { db := db', sends := st.sends }
        else
          .ok { db := db', sends := st.sends }

/-- Runs the loop over the fetched batch; the first raising item aborts the
remainder of the batch. -/
def runItems (env : SweepEnv) : List (AlertRow × Nat) → SweepState → SweepResult
  | [], st => .completed st
  | item :: rest, st =>
    match stepAlert env st item with
    | .error st' => .aborted st'
    | .ok st' => runItems env rest st'

/-- `PriceTracker.check_price_alerts`: select the active alerts of active
users, then process them sequentially. -/
def checkPriceAlerts (env : SweepEnv) (db : SteamDB) : SweepResult :=
  runItems env (fetchAlerts db) { db := db, sends := [] }

/-- A sequence of evaluator sweeps, one environment per scheduled cycle,
returning the final database and all notification sends in order. -/
def runSweeps : List SweepEnv → SteamDB → SteamDB × List Nat
  | [], db => (db, [])
  | e :: rest, db =>
    let st := (checkPriceAlerts e db).state
    let r := runSweeps rest st.db
    (r.1, st.sends ++ r.2)

/-- Sweep environment in which every app reports a plain price `p` (paise),
every send succeeds, no statement raises, and the clock reads `t`. -/
def mkSweepEnv (p t : Nat) : SweepEnv :=
  let gd : GameData :=
    { name := "game", isFree := false,
      priceOverview := some { final := p, initial := p, discountPercent := 0 } }
  { price := fun _ => some gd,
    sendOk := fun _ => true,
    persistFails := fun _ => false,
    now := t }

/-! Basic sweep lemmas. -/

theorem fetchAlerts_single (a : AlertRow) (g : Nat → Nat) (u : Nat → Bool)
    (ha : a.isActive = true) (hu : u a.userId = true) :
    fetchAlerts ⟨[a], g, u⟩ = [(a, g a.appId)] := by
  simp [fetchAlerts, ha, hu]

theorem fetchAlerts_nil_of_inactive (db : SteamDB)
    (h : ∀ b ∈ db.alerts, b.isActive = false) :
    fetchAlerts db = [] := by
  unfold fetchAlerts
  rw [List.filter_eq_nil_iff.mpr, List.map_nil]
  intro b hb
  simp [h b hb]

theorem checkPriceAlerts_inactive (env : SweepEnv) (db : SteamDB)
    (h : ∀ b ∈ db.alerts, b.isActive = false) :
    checkPriceAlerts env db = .completed ⟨db, []⟩ := by
  unfold checkPriceAlerts
  rw [fetchAlerts_nil_of_inactive db h]
  rfl

theorem runSweeps_inactive (envs : List SweepEnv) (db : SteamDB)
    (h : ∀ b ∈ db.alerts, b.isActive = false) :
    runSweeps envs db = (db, []) := by
  induction envs with
  | nil => rfl
  | cons e rest ih =>
    unfold runSweeps
    rw [checkPriceAlerts_inactive e db h]
    simp [SweepResult.state, ih]

theorem runSweeps_append (l1 l2 : List SweepEnv) (db : SteamDB) :
    runSweeps (l1 ++ l2) db =
      ((runSweeps l2 (runSweeps l1 db).1).1,
        (runSweeps l1 db).2 ++ (runSweeps l2 (runSweeps l1 db).1).2) := by
  induction l1 generalizing db with
  | nil => simp [runSweeps]
  | cons e rest ih =>
    simp only [List.cons_append, runSweeps, List.append_eq]
    rw [ih]
    simp [List.append_assoc]

/-- A single-alert sweep in which the price does not reach the target:
the alert row is untouched, the game price is refreshed, and no email goes
out. -/
theorem sweep_no_trigger (a : AlertRow) (g : Nat → Nat) (u : Nat → Bool) (p t : Nat)
    (hty : a.alertType = .belowTarget) (ha : a.isActive = true) (hu : u a.userId = true)
    (hgt : a.targetPrice < p) :
    checkPriceAlerts (mkSweepEnv p t) ⟨[a], g, u⟩ =
      .completed ⟨⟨[a], fun x => if x = a.appId then p else g x, u⟩, []⟩ := by
  unfold checkPriceAlerts
  rw [fetchAlerts_single a g u ha hu]
  simp [runItems, stepAlert, mkSweepEnv, shouldTrigger, hty, Nat.not_le.mpr hgt]

/-- A single-alert sweep in which the price reaches the target and the send
succeeds: the alert is marked triggered and exactly one email goes out. -/
theorem sweep_trigger (a : AlertRow) (g : Nat → Nat) (u : Nat → Bool) (p t : Nat)
    (hty : a.alertType = .belowTarget) (ha : a.isActive = true) (hu : u a.userId = true)
    (hle : p ≤ a.targetPrice) :
    checkPriceAlerts (mkSweepEnv p t) ⟨[a], g, u⟩ =
      .completed ⟨⟨[{ a with isActive := false, triggeredAt := some t }],
        fun x => if x = a.appId then p else g x, u⟩, [a.id]⟩ := by
  unfold checkPriceAlerts
  rw [fetchAlerts_single a g u ha hu]
  simp [runItems, stepAlert, mkSweepEnv, shouldTrigger, hty, hle, setTriggered]

theorem runSweeps_above_target (a : AlertRow) (u : Nat → Bool) (t : Nat)
    (hty : a.alertType = .belowTarget) (ha : a.isActive = true) (hu : u a.userId = true)
    (pre : List Nat) :
    (∀ p ∈ pre, a.targetPrice < p) → ∀ g : Nat → Nat,
      ∃ g', runSweeps (pre.map (fun p => mkSweepEnv p t)) ⟨[a], g, u⟩ = (⟨[a], g', u⟩, []) := by
  induction pre with
  | nil => exact fun _ g => ⟨g, rfl⟩
  | cons p rest ih =>
    intro hpre g
    obtain ⟨g', hg'⟩ := ih (fun q hq => hpre q (by simp [hq]))
      (fun x => if x = a.appId then p else g x)
    refine ⟨g', ?_⟩
    simp only [List.map_cons, runSweeps]
    rw [sweep_no_trigger a g u p t hty ha hu (hpre p (by simp))]
    simpa [SweepResult.state] using hg'

/-- C1: a `below_target` alert over a price sequence that first crosses the
target at some point is triggered exactly once — a single notification send,
the row left `TRIGGERED` (inactive, `triggered_at` set), and all later
sweeps send nothing. -/
theorem below_target_alert_triggers_exactly_once
    (a : AlertRow) (g : Nat → Nat) (u : Nat → Bool)
    (pre post : List Nat) (p0 t : Nat)
    (hty : a.alertType = .belowTarget) (ha : a.isActive = true)
    (hu : u a.userId = true)
    (hpre : ∀ p ∈ pre, a.targetPrice < p) (h0 : p0 ≤ a.targetPrice) :
    (runSweeps ((pre ++ p0 :: post).map (fun p => mkSweepEnv p t)) ⟨[a], g, u⟩).2 = [a.id] ∧
    (runSweeps ((pre ++ p0 :: post).map (fun p => mkSweepEnv p t)) ⟨[a], g, u⟩).1.alerts =
      [{ a with isActive := false, triggeredAt := some t }] := by
  obtain ⟨g1, hg1⟩ := runSweeps_above_target a u t hty ha hu pre hpre g
  have hmap : (pre ++ p0 :: post).map (fun p => mkSweepEnv p t)
      = pre.map (fun p => mkSweepEnv p t)
        ++ (mkSweepEnv p0 t :: post.map (fun p => mkSweepEnv p t)) := by
    simp
  rw [hmap, runSweeps_append, hg1]
  simp only [runSweeps]
  rw [sweep_trigger a g1 u p0 t hty ha hu h0]
  have hpost := runSweeps_inactive (post.map (fun p => mkSweepEnv p t))
      ⟨[{ a with isActive := false, triggeredAt := some t }],
        fun x => if x = a.appId then p0 else g1 x, u⟩
      (by intro b hb; simp only [List.mem_singleton] at hb; subst hb; rfl)
  simp [SweepResult.state, hpost]

/-- Witness for C1 at the spec's example: target 500.00, price sequence
600 → 450 → 400 (amounts in paise), send always succeeding. -/
theorem below_target_alert_triggers_exactly_once_witness :
    (runSweeps (([60000] ++ 45000 :: [40000]).map (fun p => mkSweepEnv p 99))
        ⟨[⟨1, 7, 271590, 50000, .belowTarget, true, none⟩],
          fun _ => 60000, fun _ => true⟩).2 = [1] ∧
    (runSweeps (([60000] ++ 45000 :: [40000]).map (fun p => mkSweepEnv p 99))
        ⟨[⟨1, 7, 271590, 50000, .belowTarget, true, none⟩],
          fun _ => 60000, fun _ => true⟩).1.alerts =
      [⟨1, 7, 271590, 50000, .belowTarget, false, some 99⟩] :=
  below_target_alert_triggers_exactly_once
    ⟨1, 7, 271590, 50000, .belowTarget, true, none⟩ (fun _ => 60000) (fun _ => true)
    [60000] [40000] 45000 99 rfl rfl rfl (by decide) (by decide)

/-- C2: when the trigger condition holds but the notification send fails, the
sweep completes with the alert row untouched (still active, `triggered_at`
still null), no send recorded, and the game's current price refreshed — and a
later sweep in which the send succeeds retries and delivers the alert. -/
theorem failed_send_leaves_alert_retryable
    (a : AlertRow) (g : Nat → Nat) (u : Nat → Bool) (env : SweepEnv)
    (gd : GameData) (po : PriceOverview)
    (hty : a.alertType = .belowTarget) (ha : a.isActive = true) (hu : u a.userId = true)
    (hp : env.price a.appId = some gd) (hpo : gd.priceOverview = some po)
    (hcross : po.final ≤ a.targetPrice)
    (hpersist : env.persistFails a.appId = false)
    (hsend : env.sendOk a.id = false) :
    checkPriceAlerts env ⟨[a], g, u⟩ =
      .completed ⟨⟨[a], fun x => if x = a.appId then po.final else g x, u⟩, []⟩ ∧
    ∀ p2 t2, p2 ≤ a.targetPrice →
      (checkPriceAlerts (mkSweepEnv p2 t2)
          (checkPriceAlerts env ⟨[a], g, u⟩).state.db).state.sends = [a.id] := by
  have h1 : checkPriceAlerts env ⟨[a], g, u⟩ =
      .completed ⟨⟨[a], fun x => if x = a.appId then po.final else g x, u⟩, []⟩ := by
    unfold checkPriceAlerts
    rw [fetchAlerts_single a g u ha hu]
    simp [runItems, stepAlert, hp, hpo, hpersist, shouldTrigger, hty, hcross, hsend]
  refine ⟨h1, ?_⟩
  intro p2 t2 hle
  rw [h1]
  have h2 := sweep_trigger a (fun x => if x = a.appId then po.final else g x) u p2 t2
    hty ha hu hle
  simp only [SweepResult.state]
  rw [h2]

/-- Witness for C2: target 500.00, a fetched price of 450.00 with the send
failing, then a retry sweep at price 450.00 with the send succeeding. -/
theorem failed_send_leaves_alert_retryable_witness :
    checkPriceAlerts
        ⟨fun _ => some ⟨"g", false, some ⟨45000, 45000, 0⟩⟩,
          fun _ => false, fun _ => false, 5⟩
        ⟨[⟨1, 7, 271590, 50000, .belowTarget, true, none⟩],
          fun _ => 60000, fun _ => true⟩ =
      .completed ⟨⟨[⟨1, 7, 271590, 50000, .belowTarget, true, none⟩],
        fun x => if x = 271590 then 45000 else 60000, fun _ => true⟩, []⟩ ∧
    ∀ p2 t2, p2 ≤ 50000 →
      (checkPriceAlerts (mkSweepEnv p2 t2)
          (checkPriceAlerts
            ⟨fun _ => some ⟨"g", false, some ⟨45000, 45000, 0⟩⟩,
              fun _ => false, fun _ => false, 5⟩
            ⟨[⟨1, 7, 271590, 50000, .belowTarget, true, none⟩],
              fun _ => 60000, fun _ => true⟩).state.db).state.sends = [1] :=
  failed_send_leaves_alert_retryable
    ⟨1, 7, 271590, 50000, .belowTarget, true, none⟩ (fun _ => 60000) (fun _ => true)
    ⟨fun _ => some ⟨"g", false, some ⟨45000, 45000, 0⟩⟩, fun _ => false, fun _ => false, 5⟩
    ⟨"g", false, some ⟨45000, 45000, 0⟩⟩ ⟨45000, 45000, 0⟩
    rfl rfl rfl rfl rfl (by decide) rfl rfl

/-- C10: when the price source returns game data without a `price_overview`
field, the evaluator leaves the whole database untouched and sends nothing —
whatever the alert's target price. This outcome is distinct from the
not-found skip (`none` from the source) and from a normal price refresh. -/
theorem missing_price_field_leaves_state_unchanged
    (a : AlertRow) (g : Nat → Nat) (u : Nat → Bool) (env : SweepEnv) (gd : GameData)
    (ha : a.isActive = true) (hu : u a.userId = true)
    (hp : env.price a.appId = some gd) (hpo : gd.priceOverview = none) :
    checkPriceAlerts env ⟨[a], g, u⟩ = .completed ⟨⟨[a], g, u⟩, []⟩ := by
  unfold checkPriceAlerts
  rw [fetchAlerts_single a g u ha hu]
  simp [runItems, stepAlert, hp, hpo]

/-- Witness for C10: a free-to-play payload (no `price_overview`) for an
alert whose target is far above zero. -/
theorem missing_price_field_leaves_state_unchanged_witness :
    checkPriceAlerts
        ⟨fun _ => some ⟨"f2p", true, none⟩, fun _ => true, fun _ => false, 3⟩
        ⟨[⟨1, 7, 570, 50000, .belowTarget, true, none⟩],
          fun _ => 60000, fun _ => true⟩ =
      .completed ⟨⟨[⟨1, 7, 570, 50000, .belowTarget, true, none⟩],
        fun _ => 60000, fun _ => true⟩, []⟩ :=
  missing_price_field_leaves_state_unchanged
    ⟨1, 7, 570, 50000, .belowTarget, true, none⟩ (fun _ => 60000) (fun _ => true)
    ⟨fun _ => some ⟨"f2p", true, none⟩, fun _ => true, fun _ => false, 3⟩
    ⟨"f2p", true, none⟩ rfl rfl rfl rfl

/-! Frame lemmas: a sweep touches only the rows it fetched. -/

theorem mem_setTriggered_of_ne (alerts : List AlertRow) (id now : Nat) (b : AlertRow)
    (hb : b ∈ alerts) (hne : b.id ≠ id) : b ∈ setTriggered alerts id now := by
  unfold setTriggered
  have : (fun a => if a.id = id then
      { a with isActive := false, triggeredAt := some now } else a) b = b := by
    simp [hne]
  exact this ▸ List.mem_map_of_mem _ hb

theorem stepAlert_frame (env : SweepEnv) (st : SweepState) (item : AlertRow × Nat)
    (r : SweepState)
    (hr : stepAlert env st item = .ok r ∨ stepAlert env st item = .error r) :
    (r.db.alerts = st.db.alerts ∨
      r.db.alerts = setTriggered st.db.alerts item.1.id env.now) ∧
    (∀ x, x ≠ item.1.appId → r.db.gamePrice x = st.db.gamePrice x) ∧
    r.db.userActive = st.db.userActive ∧
    (r.sends = st.sends ∨ r.sends = st.sends ++ [item.1.id]) := by
  unfold stepAlert at hr
  cases hp : env.price item.1.appId with
  | none =>
    simp only [hp] at hr
    rcases hr with hr | hr
    · injection hr with h
      subst h
      exact ⟨Or.inl rfl, fun _ _ => rfl, rfl, Or.inl rfl⟩
    · exact absurd hr (by simp)
  | some gd =>
    simp only [hp] at hr
    cases hpo : gd.priceOverview with
    | none =>
      simp only [hpo] at hr
      rcases hr with hr | hr
      · injection hr with h
        subst h
        exact ⟨Or.inl rfl, fun _ _ => rfl, rfl, Or.inl rfl⟩
      · exact absurd hr (by simp)
    | some po =>
      simp only [hpo] at hr
      by_cases hpf : env.persistFails item.1.appId = true
      · rw [if_pos hpf] at hr
        rcases hr with hr | hr
        · exact absurd hr (by simp)
        · injection hr with h
          subst h
          exact ⟨Or.inl rfl, fun _ _ => rfl, rfl, Or.inl rfl⟩
      · rw [if_neg hpf] at hr
        by_cases hst : shouldTrigger item.1.alertType item.1.targetPrice item.2 po.final = true
        · rw [if_pos hst] at hr
          by_cases hsend : env.sendOk item.1.id = true
          · rw [if_pos hsend] at hr
            rcases hr with hr | hr
            · injection hr with h
              subst h
              exact ⟨Or.inr rfl, fun x hx => by simp [hx], rfl, Or.inr rfl⟩
            · exact absurd hr (by simp)
          · rw [if_neg hsend] at hr
            rcases hr with hr | hr
            · injection hr with h
              subst h
              exact ⟨Or.inl rfl, fun x hx => by simp [hx], rfl, Or.inl rfl⟩
            · exact absurd hr (by simp)
        · rw [if_neg hst] at hr
          rcases hr with hr | hr
          · injection hr with h
            subst h
            exact ⟨Or.inl rfl, fun x hx => by simp [hx], rfl, Or.inl rfl⟩
          · exact absurd hr (by simp)

theorem runItems_frame (env : SweepEnv) (items : List (AlertRow × Nat)) (st : SweepState) :
    (runItems env items st).state.db.userActive = st.db.userActive ∧
    (∀ x, x ∉ items.map (fun it => it.1.appId) →
      (runItems env items st).state.db.gamePrice x = st.db.gamePrice x) ∧
    (∀ b ∈ st.db.alerts, b.id ∉ items.map (fun it => it.1.id) →
      b ∈ (runItems env items st).state.db.alerts) ∧
    (∀ i, i ∉ items.map (fun it => it.1.id) → i ∉ st.sends →
      i ∉ (runItems env items st).state.sends) := by
  induction items generalizing st with
  | nil => exact ⟨rfl, fun _ _ => rfl, fun b hb _ => hb, fun i _ h => h⟩
  | cons item rest ih =>
    cases hstep : stepAlert env st item with
    | error st' =>
      have hrun : runItems env (item :: rest) st = .aborted st' := by
        simp [runItems, hstep]
      obtain ⟨hal, hgp, hua, hs⟩ := stepAlert_frame env st item st' (Or.inr hstep)
      rw [hrun]
      simp only [SweepResult.state]
      refine ⟨hua, ?_, ?_, ?_⟩
      · intro x hx
        simp only [List.map_cons, List.mem_cons, not_or] at hx
        exact hgp x hx.1
      · intro b hb hid
        simp only [List.map_cons, List.mem_cons, not_or] at hid
        rcases hal with h | h
        · exact h ▸ hb
        · exact h ▸ mem_setTriggered_of_ne _ _ _ b hb hid.1
      · intro i hid hi
        simp only [List.map_cons, List.mem_cons, not_or] at hid
        rcases hs with h | h
        · exact h ▸ hi
        · rw [h]; simp [hi, hid.1]
    | ok st' =>
      have hrun : runItems env (item :: rest) st = runItems env rest st' := by
        simp [runItems, hstep]
      obtain ⟨hal, hgp, hua, hs⟩ := stepAlert_frame env st item st' (Or.inl hstep)
      obtain ⟨ihu, ihg, iha, ihs⟩ := ih st'
      rw [hrun]
      refine ⟨ihu.trans hua, ?_, ?_, ?_⟩
      · intro x hx
        simp only [List.map_cons, List.mem_cons, not_or] at hx
        exact (ihg x hx.2).trans (hgp x hx.1)
      · intro b hb hid
        simp only [List.map_cons, List.mem_cons, not_or] at hid
        refine iha b ?_ hid.2
        rcases hal with h | h
        · exact h ▸ hb
        · exact h ▸ mem_setTriggered_of_ne _ _ _ b hb hid.1
      · intro i hid hi
        simp only [List.map_cons, List.mem_cons, not_or] at hid
        refine ihs i hid.2 ?_
        rcases hs with h | h
        · exact h ▸ hi
        · rw [h]; simp [hi, hid.1]

/-- C9: the evaluator's select filters on `su.is_active`, so an active alert
whose owning user is deactivated is left completely alone by a sweep: the row
survives unchanged, no notification is sent for it, and — when no processed
alert shares its game — the game's stored price is not refreshed either. -/
theorem evaluator_ignores_deactivated_users
    (db : SteamDB) (env : SweepEnv) (a : AlertRow)
    (hmem : a ∈ db.alerts) (hinactive : db.userActive a.userId = false)
    (hnodup : (db.alerts.map (fun b => b.id)).Nodup) :
    a ∈ (checkPriceAlerts env db).state.db.alerts ∧
    a.id ∉ (checkPriceAlerts env db).state.sends ∧
    ((∀ b ∈ db.alerts, b.isActive = true → db.userActive b.userId = true →
        b.appId ≠ a.appId) →
      (checkPriceAlerts env db).state.db.gamePrice a.appId = db.gamePrice a.appId) := by
  obtain ⟨-, hg, hal, hsends⟩ := runItems_frame env (fetchAlerts db) ⟨db, []⟩
  have hid : a.id ∉ (fetchAlerts db).map (fun it => it.1.id) := by
    intro hin
    simp only [fetchAlerts, List.map_map, List.mem_map, Function.comp] at hin
    obtain ⟨b, hbmem, hbid⟩ := hin
    have hbfilter := List.of_mem_filter hbmem
    have hbdb := List.mem_of_mem_filter hbmem
    simp only [Bool.and_eq_true] at hbfilter
    have : b = a := List.inj_on_of_nodup_map hnodup hbdb hmem hbid
    rw [this] at hbfilter
    rw [hinactive] at hbfilter
    exact absurd hbfilter.2 (by simp)
  refine ⟨hal a hmem hid, hsends a.id hid (by simp), ?_⟩
  intro hnoshare
  refine hg a.appId ?_
  intro hin
  simp only [fetchAlerts, List.map_map, List.mem_map, Function.comp] at hin
  obtain ⟨b, hbmem, hbapp⟩ := hin
  have hbfilter := List.of_mem_filter hbmem
  have hbdb := List.mem_of_mem_filter hbmem
  simp only [Bool.and_eq_true] at hbfilter
  exact hnoshare b hbdb hbfilter.1 hbfilter.2 hbapp

/-- Witness for C9: a two-alert database in which the second alert's user is
deactivated; the sweep touches only the first alert. -/
theorem evaluator_ignores_deactivated_users_witness :
    (⟨2, 9, 730, 10000, .belowTarget, true, none⟩ : AlertRow) ∈
      (checkPriceAlerts (mkSweepEnv 500 4)
        ⟨[⟨1, 7, 570, 10000, .belowTarget, true, none⟩,
          ⟨2, 9, 730, 10000, .belowTarget, true, none⟩],
          fun _ => 20000, fun uid => uid = 7⟩).state.db.alerts ∧
    2 ∉ (checkPriceAlerts (mkSweepEnv 500 4)
        ⟨[⟨1, 7, 570, 10000, .belowTarget, true, none⟩,
          ⟨2, 9, 730, 10000, .belowTarget, true, none⟩],
          fun _ => 20000, fun uid => uid = 7⟩).state.sends ∧
    ((∀ b ∈ [(⟨1, 7, 570, 10000, .belowTarget, true, none⟩ : AlertRow),
          ⟨2, 9, 730, 10000, .belowTarget, true, none⟩], b.isActive = true →
        (fun uid => decide (uid = 7)) b.userId = true → b.appId ≠ 730) →
      (checkPriceAlerts (mkSweepEnv 500 4)
        ⟨[⟨1, 7, 570, 10000, .belowTarget, true, none⟩,
          ⟨2, 9, 730, 10000, .belowTarget, true, none⟩],
          fun _ => 20000, fun uid => uid = 7⟩).state.db.gamePrice 730 = 20000) :=
  evaluator_ignores_deactivated_users
    ⟨[⟨1, 7, 570, 10000, .belowTarget, true, none⟩,
      ⟨2, 9, 730, 10000, .belowTarget, true, none⟩],
      fun _ => 20000, fun uid => uid = 7⟩
    (mkSweepEnv 500 4)
    ⟨2, 9, 730, 10000, .belowTarget, true, none⟩
    (by simp) (by decide) (by decide)

/-! The alert-store upsert of `create_price_alert_internal`. -/

/-- Whether a row carries the conflict key of the
`UNIQUE(user_id, app_id, alert_type)` constraint on `price_alerts`. -/
def hasKey (uid appId : Nat) (ty : AlertType) (a : AlertRow) : Bool :=
  a.userId = uid && a.appId = appId && a.alertType == ty

/-- The `INSERT INTO price_alerts ... ON CONFLICT (user_id, app_id,
alert_type) DO UPDATE SET target_price = EXCLUDED.target_price,
is_active = TRUE, triggered_at = NULL` statement; the alert type inserted by
`create_price_alert_internal` is always `'below_target'`. -/
def upsertAlert (tbl : List AlertRow) (newId uid appId tp : Nat) : List AlertRow :=
  if tbl.any (hasKey uid appId .belowTarget) then
    tbl.map (fun a => if hasKey uid appId .belowTarget a then
      { a with targetPrice := tp, isActive := true, triggeredAt := none } else a)
  else
    tbl ++ [⟨newId, uid, appId, tp, .belowTarget, true, none⟩]

theorem filter_key_map (uid app : Nat) (ty : AlertType) (f : AlertRow → AlertRow)
    (hf : ∀ a, hasKey uid app ty (f a) = hasKey uid app ty a) (l : List AlertRow) :
    (l.map f).filter (hasKey uid app ty) = (l.filter (hasKey uid app ty)).map f := by
  rw [List.filter_map]
  congr 1
  exact List.filter_congr (fun a _ => hf a)

/-- C3: two `setup_alert` calls with the same `(user, game, alert_type)` key
and different targets leave exactly one row for that key, carrying the later
target, active and with `triggered_at` null — both when the first alert is
still pending and when the evaluator triggered it in between. -/
theorem upsert_twice_leaves_single_active_row
    (tbl : List AlertRow) (uid app id1 id2 p1 p2 now : Nat)
    (habsent : ∀ a ∈ tbl, hasKey uid app .belowTarget a = false) :
    (upsertAlert (upsertAlert tbl id1 uid app p1) id2 uid app p2).filter
        (hasKey uid app .belowTarget) =
      [⟨id1, uid, app, p2, .belowTarget, true, none⟩] ∧
    (upsertAlert (setTriggered (upsertAlert tbl id1 uid app p1) id1 now)
        id2 uid app p2).filter (hasKey uid app .belowTarget) =
      [⟨id1, uid, app, p2, .belowTarget, true, none⟩] := by
  have hany : tbl.any (hasKey uid app .belowTarget) = false := by
    rw [List.any_eq_false]
    intro a ha
    simp [habsent a ha]
  have hfilter0 : tbl.filter (hasKey uid app .belowTarget) = [] :=
    List.filter_eq_nil_iff.mpr (by intro a ha; simp [habsent a ha])
  have h1 : upsertAlert tbl id1 uid app p1
      = tbl ++ [⟨id1, uid, app, p1, .belowTarget, true, none⟩] := by
    simp [upsertAlert, hany]
  have hkeyrow : hasKey uid app .belowTarget ⟨id1, uid, app, p1, .belowTarget, true, none⟩
      = true := by simp [hasKey]
  have hfilter1 : (upsertAlert tbl id1 uid app p1).filter (hasKey uid app .belowTarget)
      = [⟨id1, uid, app, p1, .belowTarget, true, none⟩] := by
    rw [h1, List.filter_append, hfilter0]
    simp [hkeyrow]
  have hany1 : (upsertAlert tbl id1 uid app p1).any (hasKey uid app .belowTarget) = true := by
    rw [h1]
    simp only [List.any_append, List.any_cons, List.any_nil, hkeyrow]
    simp
  constructor
  · rw [upsertAlert, if_pos hany1,
      filter_key_map uid app .belowTarget _ (fun a => by split <;> rfl) _,
      hfilter1]
    simp [hkeyrow]
  · have hst : ∀ a, hasKey uid app .belowTarget
        ((fun a => if a.id = id1 then
          { a with isActive := false, triggeredAt := some now } else a) a)
        = hasKey uid app .belowTarget a := by
      intro a
      by_cases h : a.id = id1 <;> simp [h, hasKey]
    have hfilterT : (setTriggered (upsertAlert tbl id1 uid app p1) id1 now).filter
        (hasKey uid app .belowTarget)
        = [⟨id1, uid, app, p1, .belowTarget, false, some now⟩] := by
      unfold setTriggered
      rw [filter_key_map uid app .belowTarget _ hst, hfilter1]
      simp
    have hanyT : (setTriggered (upsertAlert tbl id1 uid app p1) id1 now).any
        (hasKey uid app .belowTarget) = true := by
      rw [List.any_eq_true]
      refine ⟨⟨id1, uid, app, p1, .belowTarget, false, some now⟩, ?_, by simp [hasKey]⟩
      have : (⟨id1, uid, app, p1, .belowTarget, false, some now⟩ : AlertRow) ∈
          (setTriggered (upsertAlert tbl id1 uid app p1) id1 now).filter
            (hasKey uid app .belowTarget) := by
        rw [hfilterT]; simp
      exact List.mem_of_mem_filter this
    rw [upsertAlert, if_pos hanyT,
      filter_key_map uid app .belowTarget _ (fun a => by split <;> rfl) _,
      hfilterT]
    simp [hasKey]

/-- Witness for C3: empty initial table, two setups with targets 400.00 then
300.00, the first alert triggered in between. -/
theorem upsert_twice_leaves_single_active_row_witness :
    (upsertAlert (upsertAlert [] 1 7 570 40000) 2 7 570 30000).filter
        (hasKey 7 570 .belowTarget) =
      [⟨1, 7, 570, 30000, .belowTarget, true, none⟩] ∧
    (upsertAlert (setTriggered (upsertAlert [] 1 7 570 40000) 1 55) 2 7 570 30000).filter
        (hasKey 7 570 .belowTarget) =
      [⟨1, 7, 570, 30000, .belowTarget, true, none⟩] :=
  upsert_twice_leaves_single_active_row [] 7 570 1 2 40000 30000 55 (by simp)

/-! User auto-registration: `create_price_alert_internal` versus
`subscribe_daily_deals`. -/

/-- A row of `steam_users`. -/
structure UserRow where
  id : Nat
  email : String
  isActive : Bool
deriving DecidableEq, Repr

/-- The relational store touched by the registration-related tools:
`steam_users`, `daily_deals_subscriptions` (user id with its `is_active`
flag; `user_id` is UNIQUE), `price_alerts` and `steam_games` (app id with
current price in paise). -/
structure Store where
  users : List UserRow
  subs : List (Nat × Bool)
  alerts : List AlertRow
  games : List (Nat × Nat)
deriving DecidableEq, Repr

/-- `INSERT INTO steam_users (email) VALUES ($1) ON CONFLICT (email) DO
NOTHING`; `newId` is the serial id a fresh insert allocates. -/
def insertUserIfAbsent (users : List UserRow) (email : String) (newId : Nat) :
    List UserRow :=
  if users.any (fun u => u.email = email) then users
  else users ++ [⟨newId, email, true⟩]

/-- `SELECT id FROM steam_users WHERE email = $1`. -/
def findUser (users : List UserRow) (email : String) : Option UserRow :=
  users.find? (fun u => u.email = email)

/-- `INSERT INTO steam_games ... ON CONFLICT (app_id) DO UPDATE`. -/
def upsertGame (games : List (Nat × Nat)) (appId price : Nat) : List (Nat × Nat) :=
  if games.any (fun g => g.1 = appId) then
    games.map (fun g => if g.1 = appId then (appId, price) else g)
  else games ++ [(appId, price)]

/-- Outcome of `create_price_alert_internal` (database branch; the pool is
assumed available). -/
inductive SetupResult where
  | ok
  | userRegistrationFailed
  | gameNotFound
deriving DecidableEq, Repr

/-- `create_price_alert_internal`: auto-register the user (`ON CONFLICT DO
NOTHING`), look the user back up, fetch the game from the price source,
upsert the game row with its fresh price, then upsert the alert.
`gameData` is the `get_steam_price` result; `newUserId` and `newAlertId` are
the serial ids fresh inserts would allocate. -/
def createPriceAlertInternal (st : Store) (email : String) (appId targetPrice : Nat)
    (gameData : Option GameData) (newUserId newAlertId : Nat) : Store × SetupResult :=
  let users' := insertUserIfAbsent st.users email newUserId
  match findUser users' email with
  | none => ({ st with users := users' }, .userRegistrationFailed)
  | some u =>
    match gameData with
    | none => ({ st with users := users' }, .gameNotFound)
    | some gd =>
      let currentPrice :=
        if gd.isFree then 0
        else
          match gd.priceOverview with
          | some po => po.final
          | none => 0
      let stNew : Store :=
        { users := users', subs := st.subs,
          alerts := upsertAlert st.alerts newAlertId u.id appId targetPrice,
          games := upsertGame st.games appId currentPrice }
      (stNew, .ok)

/-- Outcome of `subscribe_daily_deals`. -/
inductive SubscribeResult where
  | ok
  | invalidEmail
  | userNotFound
deriving DecidableEq, Repr

/-- `subscribe_daily_deals`: validates the email shape, then requires an
existing `steam_users` row — when the user is missing it returns the
"User not found. Please register first" error and writes nothing; otherwise
it upserts the subscription row active. -/
def subscribeDailyDeals (st : Store) (email : String) : Store × SubscribeResult :=
  if email = "" || !(email.data.contains (Char.ofNat 64)) then
    (st, .invalidEmail)
  else
    match findUser st.users email with
    | none => (st, .userNotFound)
    | some u =>
      let subs' :=
        if st.subs.any (fun s => s.1 = u.id) then
          st.subs.map (fun s => if s.1 = u.id then (u.id, true) else s)
        else st.subs ++ [(u.id, true)]
      ({ st with subs := subs' }, .ok)

/-- Counterexample to C8: on an empty store, the first deals-subscription
call for a well-formed address does not auto-create the user — it fails with
the user-not-found error and leaves the store untouched. -/
theorem subscribe_does_not_autocreate_counterexample :
    subscribeDailyDeals ⟨[], [], [], []⟩ "a@b.com" =
      (⟨[], [], [], []⟩, .userNotFound) := by decide

/-- C8 (amended): for an email with no user record, the first alert-setup
call auto-creates the user row and succeeds, but the first
deals-subscription call does not auto-create — it fails with
`userNotFound` and leaves the store unchanged. -/
theorem alert_setup_autocreates_subscribe_does_not
    (st : Store) (email : String) (appId targetPrice : Nat) (gd : GameData)
    (newUserId newAlertId : Nat)
    (habsent : ∀ u ∈ st.users, u.email ≠ email)
    (hnonempty : email ≠ "") (hat : email.data.contains (Char.ofNat 64) = true) :
    (createPriceAlertInternal st email appId targetPrice (some gd)
        newUserId newAlertId).2 = .ok ∧
    (createPriceAlertInternal st email appId targetPrice (some gd)
        newUserId newAlertId).1.users = st.users ++ [⟨newUserId, email, true⟩] ∧
    subscribeDailyDeals st email = (st, .userNotFound) := by
  have hany : st.users.any (fun u => u.email = email) = false := by
    rw [List.any_eq_false]
    intro u hu
    simp [habsent u hu]
  have hins : insertUserIfAbsent st.users email newUserId
      = st.users ++ [⟨newUserId, email, true⟩] := by
    simp [insertUserIfAbsent, hany]
  have hfindnone : findUser st.users email = none := by
    unfold findUser
    rw [List.find?_eq_none]
    intro u hu
    simp [habsent u hu]
  have hfind : findUser (insertUserIfAbsent st.users email newUserId) email
      = some ⟨newUserId, email, true⟩ := by
    rw [hins]
    unfold findUser
    rw [List.find?_append]
    unfold findUser at hfindnone
    rw [hfindnone]
    simp
  have hmem : Char.ofNat 64 ∈ email.data := by simpa using hat
  have hfind' : findUser (st.users ++ [⟨newUserId, email, true⟩]) email
      = some ⟨newUserId, email, true⟩ := by
    rw [← hins]; exact hfind
  refine ⟨?_, ?_, ?_⟩
  · simp [createPriceAlertInternal, hins, hfind']
  · simp [createPriceAlertInternal, hins, hfind']
  · simp [subscribeDailyDeals, hnonempty, hmem, hfindnone]

/-- Witness for C8 at a concrete empty store and the address `a@b.com`. -/
theorem alert_setup_autocreates_subscribe_does_not_witness :
    (createPriceAlertInternal ⟨[], [], [], []⟩ "a@b.com" 570 50000
        (some ⟨"g", false, some ⟨45000, 45000, 0⟩⟩) 1 1).2 = .ok ∧
    (createPriceAlertInternal ⟨[], [], [], []⟩ "a@b.com" 570 50000
        (some ⟨"g", false, some ⟨45000, 45000, 0⟩⟩) 1 1).1.users =
      [] ++ [⟨1, "a@b.com", true⟩] ∧
    subscribeDailyDeals ⟨[], [], [], []⟩ "a@b.com" =
      (⟨[], [], [], []⟩, .userNotFound) :=
  alert_setup_autocreates_subscribe_does_not
    ⟨[], [], [], []⟩ "a@b.com" 570 50000 ⟨"g", false, some ⟨45000, 45000, 0⟩⟩ 1 1
    (by simp) (by decide) (by decide)

/-! The deals cache: `check_app_for_deal`, `get_emergency_deals`,
`get_cached_deals`, and the staleness check of `initialize_services`. -/

/-- A cached deal as assembled by `check_app_for_deal` (prices in paise). -/
structure Deal where
  name : String
  appId : Nat
  discount : Nat
  currentPrice : Nat
  originalPrice : Nat
deriving DecidableEq, Repr

/-- The deals-cache blob `{last_updated, deals}` (timestamp in seconds;
`none` mirrors a missing or unparsable `last_updated`). -/
structure DealsCache where
  lastUpdated : Option Nat
  deals : List Deal
deriving DecidableEq, Repr

/-- `check_app_for_deal`: query the price source and keep the app only when
a `price_overview` is present with a discount of at least 10%; any failure
yields `none`. -/
def checkAppForDeal (price : Nat → Option GameData) (appId : Nat) : Option Deal :=
  match price appId with
  | none => none
  | some gd =>
    match gd.priceOverview with
    | none => none
    | some po =>
      if 10 ≤ po.discountPercent then
        some ⟨gd.name, appId, po.discountPercent, po.final, po.initial⟩
      else none

/-- The hardcoded candidate list of `get_emergency_deals`. -/
def emergencyAppIds : List Nat :=
  [271590, 1086940, 1174180, 292030, 570, 730, 440, 1938090,
   524220, 1245620, 377160, 413150, 431960, 252490, 578080]

/-- `get_emergency_deals`: re-check the fixed candidate list live and return
at most 8 hits. -/
def getEmergencyDeals (price : Nat → Option GameData) : List Deal :=
  (emergencyAppIds.filterMap (checkAppForDeal price)).take 8

/-- `get_cached_deals`: when the in-memory cache holds no deals, load the
on-disk blob into it; return the resulting deals when non-empty, otherwise
fall back to the emergency check.  No timestamp is consulted. -/
def getCachedDeals (memCache diskCache : DealsCache)
    (price : Nat → Option GameData) : List Deal :=
  let c := if memCache.deals.isEmpty then diskCache else memCache
  if c.deals.isEmpty then getEmergencyDeals price
  else c.deals

/-- The freshness test of `initialize_services`: the cache counts as fresh
when `last_updated` parses and its age is below six hours. -/
def cacheIsFresh (cache : DealsCache) (now : Nat) : Bool :=
  match cache.lastUpdated with
  | none => false
  | some t => now - t < 6 * 60 * 60

/-- The `initialize_services` decision to start a background refetch, taken
when the loaded cache is stale or empty; the loaded deals stay in memory
either way. -/
def initTriggersRefetch (cache : DealsCache) (now : Nat) : Bool :=
  !(cacheIsFresh cache now) || cache.deals.isEmpty

/-- Counterexample to C5: with the live source fully unreachable and an
on-disk cache far older than the six-hour ceiling, `get_cached_deals`
returns the stale deals rather than the emergency result (which would be
empty here). -/
theorem stale_cache_returned_counterexample :
    cacheIsFresh ⟨some 0, [⟨"old", 271590, 50, 1000, 2000⟩]⟩ 1000000 = false ∧
    getEmergencyDeals (fun _ => none) = [] ∧
    getCachedDeals ⟨none, []⟩ ⟨some 0, [⟨"old", 271590, 50, 1000, 2000⟩]⟩
        (fun _ => none) = [⟨"old", 271590, 50, 1000, 2000⟩] := by
  decide

/-- C5 (amended): `get_cached_deals` never consults the cache's age: it
returns the in-memory deals when present, else the on-disk deals when
present, and only with both empty does it re-check the emergency candidate
list — which, with the live source unreachable, yields the explicit empty
result.  The six-hour staleness ceiling is consulted only by the startup
initializer, which schedules a background refetch for a stale cache. -/
theorem cached_deals_fallback_chain
    (mem disk : DealsCache) (price : Nat → Option GameData) (now : Nat)
    (hdown : ∀ appId, price appId = none) :
    (mem.deals ≠ [] → getCachedDeals mem disk price = mem.deals) ∧
    (mem.deals = [] → disk.deals ≠ [] → getCachedDeals mem disk price = disk.deals) ∧
    (mem.deals = [] → disk.deals = [] → getCachedDeals mem disk price = []) ∧
    (cacheIsFresh disk now = false → initTriggersRefetch disk now = true) := by
  have hemer : getEmergencyDeals price = [] := by
    simp [getEmergencyDeals, checkAppForDeal, hdown, emergencyAppIds]
  refine ⟨?_, ?_, ?_, ?_⟩
  · intro hmem
    simp [getCachedDeals, hmem]
  · intro hmem hdisk
    simp [getCachedDeals, hmem, hdisk]
  · intro hmem hdisk
    simp [getCachedDeals, hmem, hdisk, hemer]
  · intro hfresh
    simp [initTriggersRefetch, hfresh]

/-- Witness for C5 (amended) at a concrete stale disk cache and unreachable
live source. -/
theorem cached_deals_fallback_chain_witness :
    getCachedDeals ⟨none, []⟩ ⟨some 0, [⟨"old", 271590, 50, 1000, 2000⟩]⟩
        (fun _ => none) = [⟨"old", 271590, 50, 1000, 2000⟩] ∧
    initTriggersRefetch ⟨some 0, [⟨"old", 271590, 50, 1000, 2000⟩]⟩ 1000000 = true :=
  ⟨(cached_deals_fallback_chain ⟨none, []⟩ ⟨some 0, [⟨"old", 271590, 50, 1000, 2000⟩]⟩
      (fun _ => none) 1000000 (fun _ => rfl)).2.1 rfl (by decide),
   (cached_deals_fallback_chain ⟨none, []⟩ ⟨some 0, [⟨"old", 271590, 50, 1000, 2000⟩]⟩
      (fun _ => none) 1000000 (fun _ => rfl)).2.2.2 (by decide)⟩

/-! `fetch_and_cache_deals`: dedup then quota-mix curation. -/

/-- The curated watch-list of 45 popular app ids, exactly as hardcoded in
`fetch_and_cache_deals` (duplicates included). -/
def popularGames : List Nat :=
  [271590, 292030, 377160, 1174180, 489830, 1091500, 1245620, 1086940,
   413150, 594650, 252490, 322330, 394360, 236850, 730, 570, 578080,
   813780, 431960, 524220, 359550, 646570, 1151640, 435150, 261550,
   1938090, 1517290, 975370, 1145360, 892970, 381210, 582010, 1794680,
   1237970, 418370, 1172620, 1466860, 444090, 582010, 1238840, 1273350,
   1174180, 1113560, 1599340, 1938090]

/-- One step of the `unique_deals` dictionary build: a fresh app id is
appended; an existing entry is replaced in place when the new discount is
strictly higher (dictionary insertion order is preserved on update). -/
def insertDealDedup (acc : List Deal) (d : Deal) : List Deal :=
  if acc.any (fun x => x.appId = d.appId) then
    acc.map (fun x => if x.appId = d.appId && x.discount < d.discount then d else x)
  else acc ++ [d]

/-- The duplicate-removal pass of `fetch_and_cache_deals`. -/
def dedupDeals (ds : List Deal) : List Deal :=
  ds.foldl insertDealDedup []

/-- The curation accumulator: `final_deals` and the `added_app_ids` set. -/
structure CurSel where
  finalDeals : List Deal
  addedIds : List Nat
deriving DecidableEq, Repr

/-- Body of the first curation loop (popular picks): no length guard, only
the duplicate check against `added_app_ids`. -/
def addFirst (sel : CurSel) (d : Deal) : CurSel :=
  if d.appId ∈ sel.addedIds then sel
  else ⟨sel.finalDeals ++ [d], sel.addedIds ++ [d.appId]⟩

/-- Body of the remaining curation loops: duplicate check plus the
`len(final_deals) < 10` guard. -/
def addGuarded (sel : CurSel) (d : Deal) : CurSel :=
  if d.appId ∉ sel.addedIds ∧ sel.finalDeals.length < 10 then
    ⟨sel.finalDeals ++ [d], sel.addedIds ++ [d.appId]⟩
  else sel

/-- The curation phase of `fetch_and_cache_deals`: dedup, then mix
3 popular picks, 2 old games (app id < 500000), 2 huge discounts (≥ 50%),
and fill the rest from the highest discounts, capped at 10. -/
def curateDeals (allDeals : List Deal) : List Deal :=
  let u := dedupDeals allDeals
  let byDiscount := u.mergeSort (fun a b => b.discount ≤ a.discount)
  let byPopularity := u.filter (fun d => d.appId ∈ popularGames.take 20)
  let oldGames := u.filter (fun d => d.appId < 500000)
  let hugeDiscounts := u.filter (fun d => 50 ≤ d.discount)
  let s1 := (byPopularity.take 3).foldl addFirst ⟨[], []⟩
  let s2 := (oldGames.take 2).foldl addGuarded s1
  let s3 := (hugeDiscounts.take 2).foldl addGuarded s2
  let s4 := byDiscount.foldl addGuarded s3
  s4.finalDeals

/-- `fetch_and_cache_deals`: candidates come from checking each watch-list
app (per-item failures skipped) plus the best-effort featured scrape; the
curated result is stored wholesale in the cache and returned. -/
def fetchAndCacheDeals (price : Nat → Option GameData) (featured : List Deal) :
    List Deal :=
  curateDeals (popularGames.filterMap (checkAppForDeal price) ++ featured)

theorem length_foldl_addFirst (l : List Deal) (sel : CurSel) :
    ((l.foldl addFirst sel).finalDeals).length ≤ sel.finalDeals.length + l.length := by
  induction l generalizing sel with
  | nil => simp
  | cons d rest ih =>
    simp only [List.foldl_cons, List.length_cons]
    refine le_trans (ih (addFirst sel d)) ?_
    unfold addFirst
    split
    · omega
    · simp only [CurSel.finalDeals, List.length_append, List.length_singleton]
      omega

theorem length_foldl_addGuarded (l : List Deal) (sel : CurSel)
    (h : sel.finalDeals.length ≤ 10) :
    ((l.foldl addGuarded sel).finalDeals).length ≤ 10 := by
  induction l generalizing sel with
  | nil => exact h
  | cons d rest ih =>
    simp only [List.foldl_cons]
    refine ih (addGuarded sel d) ?_
    unfold addGuarded
    split
    · next hcond => simp; omega
    · exact h

theorem mem_foldl_addFirst (l : List Deal) (sel : CurSel) (d : Deal)
    (hd : d ∈ (l.foldl addFirst sel).finalDeals) :
    d ∈ sel.finalDeals ∨ d ∈ l := by
  induction l generalizing sel with
  | nil => exact Or.inl hd
  | cons x rest ih =>
    simp only [List.foldl_cons] at hd
    rcases ih (addFirst sel x) hd with h | h
    · unfold addFirst at h
      split at h
      · exact Or.inl h
      · simp only [List.mem_append, List.mem_singleton] at h
        rcases h with h | h
        · exact Or.inl h
        · exact Or.inr (by simp [h])
    · exact Or.inr (by simp [h])

theorem mem_foldl_addGuarded (l : List Deal) (sel : CurSel) (d : Deal)
    (hd : d ∈ (l.foldl addGuarded sel).finalDeals) :
    d ∈ sel.finalDeals ∨ d ∈ l := by
  induction l generalizing sel with
  | nil => exact Or.inl hd
  | cons x rest ih =>
    simp only [List.foldl_cons] at hd
    rcases ih (addGuarded sel x) hd with h | h
    · unfold addGuarded at h
      split at h
      · simp only [List.mem_append, List.mem_singleton] at h
        rcases h with h | h
        · exact Or.inl h
        · exact Or.inr (by simp [h])
      · exact Or.inl h
    · exact Or.inr (by simp [h])

/-- The id set tracks the selected deals' app ids and stays duplicate-free. -/
def CurInv (sel : CurSel) : Prop :=
  sel.addedIds = sel.finalDeals.map (fun d => d.appId) ∧ sel.addedIds.Nodup

theorem curInv_addFirst (sel : CurSel) (d : Deal) (h : CurInv sel) :
    CurInv (addFirst sel d) := by
  obtain ⟨hids, hnd⟩ := h
  unfold addFirst
  split
  · exact ⟨hids, hnd⟩
  · next hnew =>
    constructor
    · simp [hids]
    · simp only [List.nodup_append, List.nodup_cons, List.nodup_nil]
      exact ⟨hnd, by simp, by simpa using fun hx => hnew hx⟩

theorem curInv_addGuarded (sel : CurSel) (d : Deal) (h : CurInv sel) :
    CurInv (addGuarded sel d) := by
  obtain ⟨hids, hnd⟩ := h
  unfold addGuarded
  split
  · next hcond =>
    constructor
    · simp [hids]
    · simp only [List.nodup_append, List.nodup_cons, List.nodup_nil]
      exact ⟨hnd, by simp, by simpa using fun hx => hcond.1 hx⟩
  · exact ⟨hids, hnd⟩

theorem curInv_foldl_addFirst (l : List Deal) (sel : CurSel) (h : CurInv sel) :
    CurInv (l.foldl addFirst sel) := by
  induction l generalizing sel with
  | nil => exact h
  | cons d rest ih => exact ih _ (curInv_addFirst sel d h)

theorem curInv_foldl_addGuarded (l : List Deal) (sel : CurSel) (h : CurInv sel) :
    CurInv (l.foldl addGuarded sel) := by
  induction l generalizing sel with
  | nil => exact h
  | cons d rest ih => exact ih _ (curInv_addGuarded sel d h)

/-- C6: for every candidate set, `fetch_and_cache_deals` returns at most 10
deals, with pairwise-distinct app ids, every one of them drawn from the
deduplicated candidate pool (dedup keeps the higher discount per app id;
the quota order — popular, old, huge-discount, then highest discounts — is
the definition of `curateDeals`). -/
theorem refresh_bounded_and_deduplicated
    (price : Nat → Option GameData) (featured : List Deal) :
    (fetchAndCacheDeals price featured).length ≤ 10 ∧
    ((fetchAndCacheDeals price featured).map (fun d => d.appId)).Nodup ∧
    ∀ d ∈ fetchAndCacheDeals price featured,
      d ∈ dedupDeals (popularGames.filterMap (checkAppForDeal price) ++ featured) := by
  unfold fetchAndCacheDeals curateDeals
  set u := dedupDeals (popularGames.filterMap (checkAppForDeal price) ++ featured) with hu
  set byDiscount := u.mergeSort (fun a b => b.discount ≤ a.discount) with hbd
  set byPopularity := u.filter (fun d => decide (d.appId ∈ popularGames.take 20)) with hbp
  set oldGames := u.filter (fun d => decide (d.appId < 500000)) with hog
  set hugeDiscounts := u.filter (fun d => decide (50 ≤ d.discount)) with hhd
  set s1 := (byPopularity.take 3).foldl addFirst ⟨[], []⟩ with hs1
  set s2 := (oldGames.take 2).foldl addGuarded s1 with hs2
  set s3 := (hugeDiscounts.take 2).foldl addGuarded s2 with hs3
  set s4 := byDiscount.foldl addGuarded s3 with hs4
  have hlen1 : s1.finalDeals.length ≤ 10 := by
    refine le_trans (length_foldl_addFirst _ _) ?_
    have := List.length_take_le 3 byPopularity
    simp only [CurSel.finalDeals, List.length_nil]
    omega
  have hlen : s4.finalDeals.length ≤ 10 := by
    refine length_foldl_addGuarded _ _ ?_
    refine length_foldl_addGuarded _ _ ?_
    exact length_foldl_addGuarded _ _ hlen1
  have hinv : CurInv s4 := by
    refine curInv_foldl_addGuarded _ _ ?_
    refine curInv_foldl_addGuarded _ _ ?_
    refine curInv_foldl_addGuarded _ _ ?_
    exact curInv_foldl_addFirst _ _ ⟨rfl, List.nodup_nil⟩
  refine ⟨hlen, ?_, ?_⟩
  · obtain ⟨hids, hnd⟩ := hinv
    rw [← hids]
    exact hnd
  · intro d hd
    rcases mem_foldl_addGuarded _ _ _ hd with h | h
    · rcases mem_foldl_addGuarded _ _ _ h with h | h
      · rcases mem_foldl_addGuarded _ _ _ h with h | h
        · rcases mem_foldl_addFirst _ _ _ h with h | h
          · simp at h
          · exact List.mem_of_mem_filter (List.mem_of_mem_take h)
        · exact List.mem_of_mem_filter (List.mem_of_mem_take h)
      · exact List.mem_of_mem_filter (List.mem_of_mem_take h)
    · exact List.mem_mergeSort.mp h

/-! The Epic free-games notifier: `check_epic_free_games`. -/

/-- A currently-free promotion from the free-games feed. -/
structure Promo where
  ns : String
  offerId : String
  title : String
deriving DecidableEq, Repr

/-- The `(namespace, offer_id)` dedup key of a promotion. -/
def promoKey (g : Promo) : String × String := (g.ns, g.offerId)

/-- The notifier's persistent and side-effect state: the
`epic_free_games_alerts` rows carrying `alert_sent = TRUE` (keyed by
`(namespace, offer_id)`; this job only ever writes `TRUE`), and the log of
per-subscriber send attempts with their outcomes. -/
structure FreeGamesState where
  sentRecords : List (String × String)
  sends : List ((String × String) × String × Bool)
deriving DecidableEq, Repr

/-- The send attempts logged for one dedup key. -/
def sendsFor (key : String × String) (st : FreeGamesState) :
    List ((String × String) × String × Bool) :=
  st.sends.filter (fun s => s.1 = key)

/-- Processing of one free game: skip entirely when an `alert_sent = TRUE`
record exists for its key; otherwise attempt a notification to every
subscriber (failures are caught and logged, the loop continues) and finally
upsert the record with `alert_sent = TRUE` — however many sends succeeded. -/
def stepPromo (subs : List String) (sendOk : String × String → String → Bool)
    (st : FreeGamesState) (g : Promo) : FreeGamesState :=
  if promoKey g ∈ st.sentRecords then st
  else
    { sentRecords := st.sentRecords ++ [promoKey g],
      sends := st.sends ++ subs.map (fun e => (promoKey g, e, sendOk (promoKey g) e)) }

/-- `check_epic_free_games`: process each entry of the current free list
against the subscriber list fetched once at the start of the run. -/
def checkEpicFreeGames (subs : List String) (sendOk : String × String → String → Bool)
    (promos : List Promo) (st : FreeGamesState) : FreeGamesState :=
  promos.foldl (stepPromo subs sendOk) st

theorem marked_promo_skipped (subs : List String)
    (sendOk : String × String → String → Bool) (promos : List Promo)
    (st : FreeGamesState) (key : String × String) (h : key ∈ st.sentRecords) :
    key ∈ (checkEpicFreeGames subs sendOk promos st).sentRecords ∧
    sendsFor key (checkEpicFreeGames subs sendOk promos st) = sendsFor key st := by
  induction promos generalizing st with
  | nil => exact ⟨h, rfl⟩
  | cons g rest ih =>
    simp only [checkEpicFreeGames, List.foldl_cons] at *
    by_cases hk : promoKey g ∈ st.sentRecords
    · rw [stepPromo, if_pos hk]
      exact ih st h
    · rw [stepPromo, if_neg hk]
      have hne : promoKey g ≠ key := fun he => hk (he ▸ h)
      have hsf : sendsFor key
          ⟨st.sentRecords ++ [promoKey g],
            st.sends ++ subs.map (fun e => (promoKey g, e, sendOk (promoKey g) e))⟩
          = sendsFor key st := by
        unfold sendsFor
        simp [List.filter_append, List.filter_map, hne]
      obtain ⟨h1, h2⟩ := ih ⟨st.sentRecords ++ [promoKey g],
        st.sends ++ subs.map (fun e => (promoKey g, e, sendOk (promoKey g) e))⟩
        (by simp [h])
      exact ⟨h1, h2.trans hsf⟩

theorem unmarked_promo_notified (subs : List String)
    (sendOk : String × String → String → Bool) (promos : List Promo)
    (st : FreeGamesState) (key : String × String)
    (hnew : key ∉ st.sentRecords) (hkey : key ∈ promos.map promoKey) :
    key ∈ (checkEpicFreeGames subs sendOk promos st).sentRecords ∧
    sendsFor key (checkEpicFreeGames subs sendOk promos st) =
      sendsFor key st ++ subs.map (fun e => (key, e, sendOk key e)) := by
  induction promos generalizing st with
  | nil => simp at hkey
  | cons g rest ih =>
    simp only [checkEpicFreeGames, List.foldl_cons] at *
    by_cases hk : promoKey g = key
    · rw [stepPromo, if_neg (hk ▸ hnew)]
      have hmem : key ∈ (st.sentRecords ++ [promoKey g]) := by simp [hk]
      obtain ⟨h1, h2⟩ := marked_promo_skipped subs sendOk rest
        ⟨st.sentRecords ++ [promoKey g],
          st.sends ++ subs.map (fun e => (promoKey g, e, sendOk (promoKey g) e))⟩
        key hmem
      refine ⟨h1, h2.trans ?_⟩
      unfold sendsFor
      simp only [hk, List.filter_append, List.filter_map]
      congr 1
      have hall : List.filter
          ((fun (s : (String × String) × String × Bool) => decide (s.1 = key)) ∘
            fun e => (key, e, sendOk key e)) subs = subs :=
        List.filter_eq_self.mpr (fun e _ => by simp [Function.comp])
      rw [hall]
    · simp only [List.map_cons, List.mem_cons] at hkey
      by_cases hk2 : promoKey g ∈ st.sentRecords
      · rw [stepPromo, if_pos hk2]
        refine ih st hnew ?_
        rcases hkey with h | h
        · exact absurd h.symm hk
        · exact h
      · rw [stepPromo, if_neg hk2]
        have hnew' : key ∉ (st.sentRecords ++ [promoKey g]) := by
          simp only [List.mem_append, List.mem_singleton]
          rintro (h | h)
          · exact hnew h
          · exact hk h.symm
        have hkey' : key ∈ rest.map promoKey := by
          rcases hkey with h | h
          · exact absurd h.symm hk
          · exact h
        obtain ⟨h1, h2⟩ := ih ⟨st.sentRecords ++ [promoKey g],
          st.sends ++ subs.map (fun e => (promoKey g, e, sendOk (promoKey g) e))⟩
          hnew' hkey'
        refine ⟨h1, h2.trans ?_⟩
        unfold sendsFor
        simp [List.filter_append, List.filter_map, hk]

/-- C7: a free promotion not yet recorded is notified to every subscriber on
the run that first observes it and its `(namespace, offer_id)` record is
marked sent at the end of that run — whatever the per-subscriber outcomes —
and any later run (any subscriber list, send behaviour, or promotion feed)
adds no further sends for that key. -/
theorem free_game_notified_once_then_skipped
    (subs subs2 : List String) (sendOk sendOk2 : String × String → String → Bool)
    (promos promos2 : List Promo) (st : FreeGamesState) (g : Promo)
    (hg : g ∈ promos) (hnew : promoKey g ∉ st.sentRecords) :
    promoKey g ∈ (checkEpicFreeGames subs sendOk promos st).sentRecords ∧
    sendsFor (promoKey g) (checkEpicFreeGames subs sendOk promos st) =
      sendsFor (promoKey g) st ++
        subs.map (fun e => (promoKey g, e, sendOk (promoKey g) e)) ∧
    sendsFor (promoKey g)
        (checkEpicFreeGames subs2 sendOk2 promos2
          (checkEpicFreeGames subs sendOk promos st)) =
      sendsFor (promoKey g) (checkEpicFreeGames subs sendOk promos st) := by
  obtain ⟨h1, h2⟩ := unmarked_promo_notified subs sendOk promos st (promoKey g) hnew
    (List.mem_map_of_mem promoKey hg)
  exact ⟨h1, h2, (marked_promo_skipped subs2 sendOk2 promos2 _ _ h1).2⟩

/-- Witness for C7: promotion `("ns1", "off1")` with one subscriber whose
send fails on the first run; the record is still marked sent and a second
identical run sends nothing. -/
theorem free_game_notified_once_then_skipped_witness :
    promoKey ⟨"ns1", "off1", "Game"⟩ ∈
      (checkEpicFreeGames ["s@x.com"] (fun _ _ => false)
        [⟨"ns1", "off1", "Game"⟩] ⟨[], []⟩).sentRecords ∧
    sendsFor (promoKey ⟨"ns1", "off1", "Game"⟩)
        (checkEpicFreeGames ["s@x.com"] (fun _ _ => false)
          [⟨"ns1", "off1", "Game"⟩] ⟨[], []⟩) =
      sendsFor (promoKey ⟨"ns1", "off1", "Game"⟩) ⟨[], []⟩ ++
        ["s@x.com"].map (fun e => (promoKey ⟨"ns1", "off1", "Game"⟩, e,
          (fun (_ : String × String) (_ : String) => false)
            (promoKey ⟨"ns1", "off1", "Game"⟩) e)) ∧
    sendsFor (promoKey ⟨"ns1", "off1", "Game"⟩)
        (checkEpicFreeGames ["s@x.com"] (fun _ _ => false) [⟨"ns1", "off1", "Game"⟩]
          (checkEpicFreeGames ["s@x.com"] (fun _ _ => false)
            [⟨"ns1", "off1", "Game"⟩] ⟨[], []⟩)) =
      sendsFor (promoKey ⟨"ns1", "off1", "Game"⟩)
        (checkEpicFreeGames ["s@x.com"] (fun _ _ => false)
          [⟨"ns1", "off1", "Game"⟩] ⟨[], []⟩) :=
  free_game_notified_once_then_skipped
    ["s@x.com"] ["s@x.com"] (fun _ _ => false) (fun _ _ => false)
    [⟨"ns1", "off1", "Game"⟩] [⟨"ns1", "off1", "Game"⟩] ⟨[], []⟩
    ⟨"ns1", "off1", "Game"⟩ (by simp) (by simp [promoKey])

/-- Witness for C6 at a concrete instantiation (source down, no featured
candidates). -/
theorem refresh_bounded_and_deduplicated_witness :
    (fetchAndCacheDeals (fun _ => none) []).length ≤ 10 ∧
    ((fetchAndCacheDeals (fun _ => none) []).map (fun d => d.appId)).Nodup ∧
    ∀ d ∈ fetchAndCacheDeals (fun _ => none) [],
      d ∈ dedupDeals (popularGames.filterMap (checkAppForDeal (fun _ => none)) ++ []) :=
  refresh_bounded_and_deduplicated (fun _ => none) []

/-! The Epic price-alert sweep (`check_epic_price_alerts`), whose loop body
is wrapped in a per-item `try/except ... continue` — unlike the Steam
evaluator above. -/

/-- A row of `epic_price_alerts` (prices in cents). -/
structure EpicAlertRow where
  id : Nat
  ns : String
  offerId : String
  targetPrice : Nat
  currentPrice : Nat
  isActive : Bool
  alertSent : Bool
deriving DecidableEq, Repr

/-- The Epic sweep's environment: the price source per
`(namespace, offer_id)`, the send outcome per alert id, and whether the
`UPDATE` for an alert raises (the raise is caught by the per-item
handler). -/
structure EpicSweepEnv where
  price : String × String → Option Nat
  sendOk : Nat → Bool
  persistFails : Nat → Bool

/-- `UPDATE epic_price_alerts SET current_price = $1 WHERE id = $2`. -/
def epicSetPrice (tbl : List EpicAlertRow) (id cp : Nat) : List EpicAlertRow :=
  tbl.map (fun a => if a.id = id then { a with currentPrice := cp } else a)

/-- `UPDATE epic_price_alerts SET alert_sent = TRUE WHERE id = $1`. -/
def epicSetSent (tbl : List EpicAlertRow) (id : Nat) : List EpicAlertRow :=
  tbl.map (fun a => if a.id = id then { a with alertSent := true } else a)

/-- One iteration of the Epic loop, inside its `try`: fetch the price
(`None` skips), persist it (a raise here is caught by the item's `except`
and the loop continues with the next alert, keeping earlier writes), compare
with the target, send, and only on a successful send mark `alert_sent`. -/
def epicStepAlert (env : EpicSweepEnv) (st : List EpicAlertRow × List Nat)
    (a : EpicAlertRow) : List EpicAlertRow × List Nat :=
  match env.price (a.ns, a.offerId) with
  | none => st
  | some cp =>
    if env.persistFails a.id then st
    else
      let tbl := epicSetPrice st.1 a.id cp
      if cp ≤ a.targetPrice then
        if env.sendOk a.id then (epicSetSent tbl a.id, st.2 ++ [a.id])
        else (tbl, st.2)
      else (tbl, st.2)

/-- `check_epic_price_alerts`: select the active, unsent alerts once, then
process each in turn; a failure in one item never aborts the batch. -/
def checkEpicPriceAlerts (env : EpicSweepEnv) (tbl : List EpicAlertRow) :
    List EpicAlertRow × List Nat :=
  (tbl.filter (fun a => a.isActive && !a.alertSent)).foldl (epicStepAlert env) (tbl, [])

/-- C4 (divergence): in the Steam evaluator a raising price-persist on the
first alert aborts the whole sweep — the second alert is never evaluated,
refreshed or notified even though its trigger condition holds — while the
Epic evaluator isolates the same failure and still processes the second
alert to completion.  Both batches hold two below-target alerts with target
500.00 and a live price of 400.00; the persist for the first alert raises. -/
theorem steam_sweep_aborts_where_epic_sweep_isolates :
    (checkPriceAlerts
        ⟨fun _ => some ⟨"g", false, some ⟨40000, 40000, 0⟩⟩,
          fun _ => true, fun app => app = 10, 9⟩
        ⟨[⟨1, 7, 10, 50000, .belowTarget, true, none⟩,
          ⟨2, 8, 20, 50000, .belowTarget, true, none⟩],
          fun _ => 60000, fun _ => true⟩).isCompleted = false ∧
    (checkPriceAlerts
        ⟨fun _ => some ⟨"g", false, some ⟨40000, 40000, 0⟩⟩,
          fun _ => true, fun app => app = 10, 9⟩
        ⟨[⟨1, 7, 10, 50000, .belowTarget, true, none⟩,
          ⟨2, 8, 20, 50000, .belowTarget, true, none⟩],
          fun _ => 60000, fun _ => true⟩).state.sends = [] ∧
    (checkPriceAlerts
        ⟨fun _ => some ⟨"g", false, some ⟨40000, 40000, 0⟩⟩,
          fun _ => true, fun app => app = 10, 9⟩
        ⟨[⟨1, 7, 10, 50000, .belowTarget, true, none⟩,
          ⟨2, 8, 20, 50000, .belowTarget, true, none⟩],
          fun _ => 60000, fun _ => true⟩).state.db.alerts =
      [⟨1, 7, 10, 50000, .belowTarget, true, none⟩,
       ⟨2, 8, 20, 50000, .belowTarget, true, none⟩] ∧
    (checkPriceAlerts
        ⟨fun _ => some ⟨"g", false, some ⟨40000, 40000, 0⟩⟩,
          fun _ => true, fun app => app = 10, 9⟩
        ⟨[⟨1, 7, 10, 50000, .belowTarget, true, none⟩,
          ⟨2, 8, 20, 50000, .belowTarget, true, none⟩],
          fun _ => 60000, fun _ => true⟩).state.db.gamePrice 20 = 60000 ∧
    checkEpicPriceAlerts
        ⟨fun _ => some 40000, fun _ => true, fun id => id = 1⟩
        [⟨1, "n1", "o1", 50000, 60000, true, false⟩,
         ⟨2, "n2", "o2", 50000, 60000, true, false⟩] =
      ([⟨1, "n1", "o1", 50000, 60000, true, false⟩,
        ⟨2, "n2", "o2", 50000, 40000, true, true⟩], [2]) := by
  decide

end SteamMCP
